import Mathlib

/-!
Verification of the `pubserve` publisher/subscriber library (`src/lib.rs`).

A `Publisher<T>` in the source holds `subscribers: Vec<ReferenceCounted<dyn Subscriber<T>>>`.
A `ReferenceCounted` handle (`Rc`/`Arc`) is identified by the address of its allocation:
`unsubscribe` compares handles with `ReferenceCounted::ptr_eq`, i.e. pointer identity.
We embed a handle as its address, a natural number; two handles are identity-equal
exactly when the numbers are equal, and a freshly allocated handle holding an equal
value is a different number.

The subscriber behaviour (the `update` method of the `Subscriber` trait object behind
a handle) is an environment parameter `upd : Handle → T → Except E Unit`: `.ok ()` is a
normal return, `.error e` an unhandled failure (panic) propagating out of `update`.
`publish` is embedded as a function returning the trace of `update` invocations made,
in the order the loop makes them, each carrying the message value passed by reference,
together with the propagated failure, if any.
-/

/-- The address of a `ReferenceCounted` allocation. `ReferenceCounted::ptr_eq` is
equality of addresses. -/
abbrev Handle : Type := Nat

/-- `pub struct Publisher<T> { subscribers: Vec<ReferenceCounted<dyn Subscriber<T>>> }`.
The type parameter `T` is the message type; the list stores handle identities. -/
structure Publisher (T : Type) where
  subscribers : List Handle
  deriving DecidableEq, Repr

namespace Publisher

variable {T : Type} {E : Type}

/-- `impl Default for Publisher<T>`: `Self { subscribers: Vec::new() }`. -/
def default : Publisher T := ⟨[]⟩

/-- `Publisher::new`: `Self::default()`. -/
def new : Publisher T := default

/-- `Publisher::has_subscribers`: `!self.subscribers.is_empty()`. -/
def has_subscribers (p : Publisher T) : Bool :=
  !p.subscribers.isEmpty

/-- `Publisher::subscribe`: `self.subscribers.push(subscriber)`. -/
def subscribe (p : Publisher T) (subscriber : Handle) : Publisher T :=
  ⟨p.subscribers ++ [subscriber]⟩

/-- `Publisher::unsubscribe`:
`self.subscribers.retain(|s| !ReferenceCounted::ptr_eq(s, &subscriber))`. -/
def unsubscribe (p : Publisher T) (subscriber : Handle) : Publisher T :=
  ⟨p.subscribers.filter (fun s => !(s == subscriber))⟩

/-- The loop body of `Publisher::publish`:
`for subscriber in &self.subscribers { subscriber.update(&message); }`.
Returns the trace of `update` invocations (handle, message passed by reference) in
loop order, and the failure propagating out of the loop, if any: a failing `update`
call is the last invocation made, and the remaining subscribers are not visited. -/
def publishGo (upd : Handle → T → Except E Unit) (message : T) :
    List Handle → List (Handle × T) × Option E
  | [] => ([], none)
  | s :: rest =>
    match upd s message with
    | .error e => ([(s, message)], some e)
    | .ok _ =>
      let r := publishGo upd message rest
      ((s, message) :: r.1, r.2)

/-- `Publisher::publish(&self, message: T)`: iterates over `&self.subscribers`
in order, invoking `update(&message)` on each. Takes `&self`, so the publisher
state is untouched; the observable outcome is the invocation trace and the
propagated failure, if any. -/
def publish (upd : Handle → T → Except E Unit) (p : Publisher T) (message : T) :
    List (Handle × T) × Option E :=
  publishGo upd message p.subscribers

/-- Modelled from the spec: `impl Clone for Publisher<T>` is exercised by
`tests/clone.rs` (`publisher.clone()`) but its implementation is not under `src/`;
the spec says the Publisher "may be duplicated (shallow copy of its subscriber
list)". The duplicate holds the same handles (clones of the shared handles point
to the same addresses). -/
def clone (p : Publisher T) : Publisher T := ⟨p.subscribers⟩

end Publisher

/-- An API call made on a publisher: the three mutating/observing operations the
spec's state machine mentions. -/
inductive LOp (T : Type) where
  | subscribe (h : Handle)
  | unsubscribe (h : Handle)
  | publish (msg : T)
  deriving DecidableEq, Repr

namespace Publisher

variable {T : Type} {E : Type}

/-- One step of the publisher state machine: the post-state and the invocation
trace / propagated failure of the call (empty for `subscribe`/`unsubscribe`,
which only mutate the list and never fail). -/
def step (upd : Handle → T → Except E Unit) (p : Publisher T) :
    LOp T → Publisher T × (List (Handle × T) × Option E)
  | .subscribe h => (p.subscribe h, ([], none))
  | .unsubscribe h => (p.unsubscribe h, ([], none))
  | .publish msg => (p, p.publish upd msg)

/-- Run a sequence of API calls from a starting state, keeping only the state. -/
def runOps (upd : Handle → T → Except E Unit) : Publisher T → List (LOp T) → Publisher T
  | p, [] => p
  | p, op :: rest => runOps upd (step upd p op).1 rest

end Publisher

/-- Whether the remaining call sequence removes handle `s` (contains an
`unsubscribe` identity-equal to `s`). -/
def removedBy {T : Type} (ops : List (LOp T)) (s : Handle) : Bool :=
  ops.any (fun o =>
    match o with
    | .unsubscribe h => s == h
    | _ => false)

/-- The handles subscribed by the call sequence that survive to its end:
each `subscribe h` with no later `unsubscribe h`, in subscription order. -/
def survivors {T : Type} : List (LOp T) → List Handle
  | [] => []
  | .subscribe h :: rest =>
    if removedBy rest h then survivors rest else h :: survivors rest
  | .unsubscribe _ :: rest => survivors rest
  | .publish _ :: rest => survivors rest

/-! ## Helper lemmas -/

/-- If every subscriber in the list returns normally, the publish loop invokes
each in order with the message and propagates no failure. -/
theorem publishGo_ok {T E : Type} (upd : Handle → T → Except E Unit) (msg : T) :
    ∀ l : List Handle, (∀ s ∈ l, upd s msg = .ok ()) →
      Publisher.publishGo upd msg l = (l.map (fun s => (s, msg)), none) := by
  intro l
  induction l with
  | nil => intro _; rfl
  | cons s rest ih =>
    intro hok
    have hs : upd s msg = .ok () := hok s (by simp)
    have hrest := ih (fun a ha => hok a (by simp [ha]))
    simp [Publisher.publishGo, hs, hrest]

/-! ## Claims -/

/-- C6: `subscribe` always succeeds, appends the handle to the end of the list
(length grows by exactly one, the existing entries and their order are
unchanged), and performs no deduplication: the multiplicity of the handle grows
by one even when it is already present. -/
theorem subscribe_appends {T : Type} (p : Publisher T) (h : Handle) :
    (p.subscribe h).subscribers.length = p.subscribers.length + 1
  ∧ (p.subscribe h).subscribers.take p.subscribers.length = p.subscribers
  ∧ (p.subscribe h).subscribers.getLast? = some h
  ∧ (p.subscribe h).subscribers.count h = p.subscribers.count h + 1 := by
  refine ⟨by simp [Publisher.subscribe], ?_, ?_, ?_⟩
  · simp [Publisher.subscribe, List.take_left]
  · simp [Publisher.subscribe]
  · simp [Publisher.subscribe, List.count_append]

/-- C8: `new` returns a publisher with an empty subscriber list, observably
empty, and is the same state as the default construction. -/
theorem new_eq_default {T : Type} :
    (Publisher.new : Publisher T).subscribers = []
  ∧ (Publisher.new : Publisher T) = Publisher.default
  ∧ (Publisher.new : Publisher T).has_subscribers = false :=
  ⟨rfl, rfl, rfl⟩

/-- C9: `unsubscribe` is idempotent: unsubscribing the same handle twice in
succession yields the same subscriber list as unsubscribing it once. -/
theorem unsubscribe_idempotent {T : Type} (p : Publisher T) (h : Handle) :
    (p.unsubscribe h).unsubscribe h = p.unsubscribe h := by
  simp [Publisher.unsubscribe, List.filter_filter]

/-- C10: if the handle is not already identity-present, subscribing it and then
unsubscribing it restores the publisher exactly; and the round-trip succeeds
only under that precondition, since `unsubscribe` also removes pre-existing
identity-equal entries. -/
theorem subscribe_unsubscribe_roundtrip {T : Type} (p : Publisher T) (h : Handle) :
    (p.subscribe h).unsubscribe h = p ↔ h ∉ p.subscribers := by
  have hfl : (p.subscribers ++ [h]).filter (fun s => !(s == h))
      = p.subscribers.filter (fun s => !(s == h)) := by
    simp [List.filter_append]
  constructor
  · intro heq hmem
    have hsub := congrArg Publisher.subscribers heq
    simp only [Publisher.unsubscribe, Publisher.subscribe, hfl] at hsub
    have := List.filter_eq_self.mp hsub h hmem
    simp at this
  · intro hnot
    have hself : p.subscribers.filter (fun s => !(s == h)) = p.subscribers :=
      List.filter_eq_self.mpr (fun a ha => by
        have hne : a ≠ h := fun e => hnot (e ▸ ha)
        simp [hne])
    simp [Publisher.unsubscribe, Publisher.subscribe, hfl, hself]

/-- C2: `unsubscribe` removes exactly the identity-equal entries: the handle is
gone from the result, every other handle keeps its multiplicity, the relative
order of the remaining entries is preserved, and unsubscribing a handle that
was never subscribed (even one value-equal to a subscribed one, hence with a
different address) is a silent no-op leaving the publisher unchanged. -/
theorem unsubscribe_removes_identity {T : Type} (p : Publisher T) (h : Handle) :
    h ∉ (p.unsubscribe h).subscribers
  ∧ (∀ s, s ≠ h → (p.unsubscribe h).subscribers.count s = p.subscribers.count s)
  ∧ (p.unsubscribe h).subscribers.Sublist p.subscribers
  ∧ (h ∉ p.subscribers → p.unsubscribe h = p) := by
  refine ⟨?_, ?_, ?_, ?_⟩
  · simp [Publisher.unsubscribe, List.mem_filter]
  · intro s hs
    simp only [Publisher.unsubscribe]
    exact List.count_filter (by simp [hs])
  · exact List.filter_sublist _
  · intro hnot
    have hself : p.subscribers.filter (fun s => !(s == h)) = p.subscribers :=
      List.filter_eq_self.mpr (fun a ha => by
        have hne : a ≠ h := fun e => hnot (e ▸ ha)
        simp [hne])
    simp [Publisher.unsubscribe, hself]

/-- Witness for C2 at a concrete publisher: unsubscribing the never-subscribed
handle 7 from the list [1, 2] is a no-op. -/
theorem unsubscribe_removes_identity_witness :
    Publisher.unsubscribe (⟨[1, 2]⟩ : Publisher Nat) 7 = ⟨[1, 2]⟩ :=
  (unsubscribe_removes_identity (⟨[1, 2]⟩ : Publisher Nat) 7).2.2.2 (by decide)

/-- C1: when every subscriber returns normally, publish invokes the receive
operation of every registered handle exactly once per registration (a handle
registered twice is invoked twice), in registration order (the invocation at
position i+1 happens after position i in the loop's trace), passing the same
message to each. -/
theorem publish_delivers_in_order {T E : Type} (upd : Handle → T → Except E Unit)
    (p : Publisher T) (msg : T)
    (hok : ∀ s ∈ p.subscribers, upd s msg = .ok ()) :
    (p.publish upd msg).1 = p.subscribers.map (fun s => (s, msg))
  ∧ (p.publish upd msg).2 = none
  ∧ (p.publish upd msg).1.length = p.subscribers.length
  ∧ (∀ i : Nat, (p.publish upd msg).1[i]? = (p.subscribers[i]?).map (fun s => (s, msg)))
  ∧ (∀ x : Handle, ((p.publish upd msg).1.map Prod.fst).count x = p.subscribers.count x) := by
  have h1 : p.publish upd msg = (p.subscribers.map (fun s => (s, msg)), none) :=
    publishGo_ok upd msg p.subscribers hok
  refine ⟨by rw [h1], by rw [h1], by rw [h1]; simp, ?_, ?_⟩
  · intro i; rw [h1]; simp
  · intro x; rw [h1]; simp [List.map_map, Function.comp_def]

/-- Witness for C1 at a concrete publisher with a doubly-registered handle. -/
theorem publish_delivers_in_order_witness :
    (Publisher.publish (fun _ _ => (Except.ok () : Except Nat Unit)) ⟨[4, 5, 4]⟩ 9).1
      = [(4, 9), (5, 9), (4, 9)]
  ∧ (Publisher.publish (fun _ _ => (Except.ok () : Except Nat Unit)) ⟨[4, 5, 4]⟩ 9).2
      = none := by
  have h := publish_delivers_in_order (fun _ _ => (Except.ok () : Except Nat Unit))
    (⟨[4, 5, 4]⟩ : Publisher Nat) 9 (fun s _ => rfl)
  exact ⟨by simpa using h.1, h.2.1⟩

/-- C5: publish takes the publisher by shared reference and never mutates the
subscriber list (the state after the publish step is the state before), and
publish on an empty subscriber list is a no-op: no subscriber is invoked and
no failure is produced. -/
theorem publish_frame {T E : Type} (upd : Handle → T → Except E Unit)
    (p : Publisher T) (msg : T) :
    (Publisher.step upd p (.publish msg)).1 = p
  ∧ (p.subscribers = [] → p.publish upd msg = ([], none)) := by
  refine ⟨rfl, fun hemp => ?_⟩
  simp [Publisher.publish, hemp, Publisher.publishGo]

/-- Witness for C5 at the empty publisher. -/
theorem publish_frame_witness :
    Publisher.publish (fun _ _ => (Except.ok () : Except Nat Unit))
      (⟨[]⟩ : Publisher Nat) 3 = ([], none) :=
  (publish_frame (fun _ _ => (Except.ok () : Except Nat Unit)) (⟨[]⟩ : Publisher Nat) 3).2 rfl

/-- Behaviour of the publish loop when the subscribers before position `i`
return normally and the one at position `i` fails: the loop invokes exactly
positions 0 through i, in order, and stops with that failure. -/
theorem publishGo_error {T E : Type} (upd : Handle → T → Except E Unit) (msg : T) (e : E) :
    ∀ (l : List Handle) (i : Nat) (hi : i < l.length),
      (∀ j (hj : j < l.length), j < i → upd (l.get ⟨j, hj⟩) msg = .ok ()) →
      upd (l.get ⟨i, hi⟩) msg = .error e →
      Publisher.publishGo upd msg l = ((l.take (i + 1)).map (fun s => (s, msg)), some e) := by
  intro l
  induction l with
  | nil => intro i hi; exact absurd hi (by simp)
  | cons s rest ih =>
    intro i hi hpre herr
    cases i with
    | zero =>
      have hs : upd s msg = .error e := by simpa using herr
      simp [Publisher.publishGo, hs]
    | succ k =>
      have hs : upd s msg = .ok () := hpre 0 (by simp) (Nat.succ_pos k)
      have hk : k < rest.length := by simpa using hi
      have hrest := ih k hk
        (fun j hj hjk => by simpa using hpre (j + 1) (by simpa using hj) (Nat.succ_lt_succ hjk))
        (by simpa using herr)
      simp [Publisher.publishGo, hs, hrest, List.take_succ_cons]

/-- The publish loop has no failure mode of its own: a propagated failure
always originates from some subscriber's receive operation. -/
theorem publishGo_error_source {T E : Type} (upd : Handle → T → Except E Unit) (msg : T) :
    ∀ (l : List Handle) (e : E),
      (Publisher.publishGo upd msg l).2 = some e → ∃ s ∈ l, upd s msg = .error e := by
  intro l
  induction l with
  | nil => intro e he; simp [Publisher.publishGo] at he
  | cons s rest ih =>
    intro e he
    cases hu : upd s msg with
    | error e0 =>
      simp [Publisher.publishGo, hu] at he
      exact ⟨s, by simp, by rw [hu, he]⟩
    | ok u =>
      simp [Publisher.publishGo, hu] at he
      obtain ⟨a, ha, hua⟩ := ih e he
      exact ⟨a, by simp [ha], hua⟩

/-- C4: an unhandled failure raised by the subscriber at position `i` (all
earlier subscribers returning normally) propagates to the publish caller as the
call's failure outcome, with exactly the subscribers at positions 0..i invoked
and none after; publish introduces no failure mode of its own (any propagated
failure originates from a subscriber), and subscribe and unsubscribe never fail
and invoke nobody. -/
theorem publish_propagates_failure {T E : Type} (upd : Handle → T → Except E Unit)
    (p : Publisher T) (msg : T) :
    (∀ (i : Nat) (hi : i < p.subscribers.length) (e : E),
      (∀ j (hj : j < p.subscribers.length), j < i →
        upd (p.subscribers.get ⟨j, hj⟩) msg = .ok ()) →
      upd (p.subscribers.get ⟨i, hi⟩) msg = .error e →
      p.publish upd msg = ((p.subscribers.take (i + 1)).map (fun s => (s, msg)), some e))
  ∧ (∀ e : E, (p.publish upd msg).2 = some e → ∃ s ∈ p.subscribers, upd s msg = .error e)
  ∧ (∀ h : Handle, (Publisher.step upd p (.subscribe h)).2 = ([], none)
      ∧ (Publisher.step upd p (.unsubscribe h)).2 = ([], none)) := by
  refine ⟨?_, ?_, fun h => ⟨rfl, rfl⟩⟩
  · intro i hi e hpre herr
    exact publishGo_error upd msg e p.subscribers i hi hpre herr
  · intro e he
    exact publishGo_error_source upd msg p.subscribers e he

/-- Witness for C4: with subscribers [4, 5, 6] and handle 5 failing, publish
invokes 4 then 5, propagates the failure, and never invokes 6. -/
theorem publish_propagates_failure_witness :
    Publisher.publish (fun h _ => if h == 5 then (Except.error 3 : Except Nat Unit) else .ok ())
      (⟨[4, 5, 6]⟩ : Publisher Nat) 9 = ([(4, 9), (5, 9)], some 3) := by
  have h := (publish_propagates_failure
      (fun h _ => if h == 5 then (Except.error 3 : Except Nat Unit) else .ok ())
      (⟨[4, 5, 6]⟩ : Publisher Nat) 9).1 1 (by decide) 3
      (by intro j hj hj1; interval_cases j; rfl) rfl
  simpa using h

/-- C3: the spec-modelled duplicate of a publisher is a shallow copy holding
the same subscriber handles; for a publisher with at least one subscriber the
duplicate is observably non-empty and publishing through it behaves exactly as
through the original, delivering the message to every subscriber. -/
theorem clone_functionally_independent {T E : Type} (upd : Handle → T → Except E Unit)
    (p : Publisher T) (msg : T)
    (hne : p.subscribers ≠ [])
    (hok : ∀ s ∈ p.subscribers, upd s msg = .ok ()) :
    p.clone.subscribers = p.subscribers
  ∧ p.clone.has_subscribers = true
  ∧ p.clone.publish upd msg = p.publish upd msg
  ∧ ∀ s ∈ p.subscribers, (s, msg) ∈ (p.clone.publish upd msg).1 := by
  refine ⟨rfl, ?_, rfl, fun s hs => ?_⟩
  · simp [Publisher.clone, Publisher.has_subscribers, hne]
  · have htr : (p.clone.publish upd msg).1 = p.subscribers.map (fun s => (s, msg)) := by
      show (Publisher.publishGo upd msg p.subscribers).1 = _
      rw [publishGo_ok upd msg p.subscribers hok]
    rw [htr]
    exact List.mem_map_of_mem _ hs

/-- Witness for C3: publishing through the duplicate of a one-subscriber
publisher delivers to that subscriber. -/
theorem clone_functionally_independent_witness :
    ((2 : Handle), (5 : Nat)) ∈
      (Publisher.publish (fun _ _ => (Except.ok () : Except Nat Unit))
        (Publisher.clone (⟨[2]⟩ : Publisher Nat)) 5).1 :=
  (clone_functionally_independent (fun _ _ => (Except.ok () : Except Nat Unit))
    (⟨[2]⟩ : Publisher Nat) 5 (by decide) (fun s _ => rfl)).2.2.2 2 (by simp)

/-- Unfolding lemma: a subscribe call removes nobody. -/
theorem removedBy_cons_subscribe {T : Type} (h s : Handle) (rest : List (LOp T)) :
    removedBy (LOp.subscribe h :: rest) s = removedBy rest s := by
  simp [removedBy]

/-- Unfolding lemma: an unsubscribe call removes exactly the identity-equal handle. -/
theorem removedBy_cons_unsubscribe {T : Type} (h s : Handle) (rest : List (LOp T)) :
    removedBy (LOp.unsubscribe h :: rest) s = ((s == h) || removedBy rest s) := by
  simp [removedBy]

/-- Unfolding lemma: a publish call removes nobody. -/
theorem removedBy_cons_publish {T : Type} (msg : T) (s : Handle) (rest : List (LOp T)) :
    removedBy (LOp.publish msg :: rest) s = removedBy rest s := by
  simp [removedBy]

/-- Unfolding lemma for `survivors` at a subscribe call. -/
theorem survivors_cons_subscribe {T : Type} (h : Handle) (rest : List (LOp T)) :
    survivors (LOp.subscribe h :: rest)
      = if removedBy rest h then survivors rest else h :: survivors rest := rfl

/-- Unfolding lemma for `survivors` at an unsubscribe call. -/
theorem survivors_cons_unsubscribe {T : Type} (h : Handle) (rest : List (LOp T)) :
    survivors (LOp.unsubscribe h :: rest) = survivors rest := rfl

/-- Unfolding lemma for `survivors` at a publish call. -/
theorem survivors_cons_publish {T : Type} (msg : T) (rest : List (LOp T)) :
    survivors (LOp.publish msg :: rest) = survivors rest := rfl

/-- Running a call sequence keeps exactly the starting entries not removed by
the sequence, followed by the subscribed handles that survive it. -/
theorem runOps_subscribers {T E : Type} (upd : Handle → T → Except E Unit) :
    ∀ (ops : List (LOp T)) (p : Publisher T),
      (Publisher.runOps upd p ops).subscribers
        = p.subscribers.filter (fun s => !removedBy ops s) ++ survivors ops := by
  intro ops
  induction ops with
  | nil =>
    intro p
    simp [Publisher.runOps, survivors, removedBy]
  | cons op rest ih =>
    intro p
    cases op with
    | subscribe h =>
      have h1 : Publisher.runOps upd p (LOp.subscribe h :: rest)
          = Publisher.runOps upd (p.subscribe h) rest := rfl
      rw [h1, ih]
      simp only [Publisher.subscribe, List.filter_append, survivors_cons_subscribe]
      by_cases hr : removedBy rest h
      · simp only [removedBy_cons_subscribe]
        simp [hr]
      · simp only [removedBy_cons_subscribe]
        simp [hr]
    | unsubscribe h =>
      have h1 : Publisher.runOps upd p (LOp.unsubscribe h :: rest)
          = Publisher.runOps upd (p.unsubscribe h) rest := rfl
      rw [h1, ih]
      simp only [Publisher.unsubscribe, survivors_cons_unsubscribe]
      congr 1
      rw [List.filter_filter]
      apply List.filter_congr
      intro a _
      simp [removedBy_cons_unsubscribe, Bool.not_or, Bool.and_comm]
    | publish msg =>
      have h1 : Publisher.runOps upd p (LOp.publish msg :: rest)
          = Publisher.runOps upd p rest := rfl
      rw [h1, ih]
      simp only [survivors_cons_publish, removedBy_cons_publish]

/-- A call sequence removes a handle exactly when it contains the
identity-equal unsubscribe call. -/
theorem removedBy_eq_false_iff {T : Type} (h : Handle) :
    ∀ ops : List (LOp T), removedBy ops h = false ↔ LOp.unsubscribe h ∉ ops := by
  intro ops
  induction ops with
  | nil => simp [removedBy]
  | cons o rest ih =>
    cases o with
    | subscribe h0 => simp [removedBy_cons_subscribe, ih]
    | unsubscribe h0 =>
      simp [removedBy_cons_unsubscribe, ih, not_or]
    | publish msg => simp [removedBy_cons_publish, ih]

/-- The survivor list is non-empty exactly when the call sequence contains a
subscribe with no later removal of that handle. -/
theorem survivors_ne_nil_iff {T : Type} :
    ∀ ops : List (LOp T), survivors ops ≠ [] ↔
      ∃ pre h post, ops = pre ++ LOp.subscribe h :: post ∧ removedBy post h = false := by
  intro ops
  induction ops with
  | nil =>
    constructor
    · intro hne; exact absurd rfl hne
    · rintro ⟨pre, h, post, hdec, -⟩
      simp at hdec
  | cons o rest ih =>
    cases o with
    | subscribe h0 =>
      by_cases hr : removedBy rest h0
      · rw [survivors_cons_subscribe, if_pos hr]
        constructor
        · intro hne
          obtain ⟨pre, h, post, hdec, hrm⟩ := ih.mp hne
          exact ⟨LOp.subscribe h0 :: pre, h, post, by simp [hdec], hrm⟩
        · rintro ⟨pre, h, post, hdec, hrm⟩
          cases pre with
          | nil =>
            simp only [List.nil_append, List.cons.injEq, LOp.subscribe.injEq] at hdec
            obtain ⟨hh, hrest⟩ := hdec
            subst hh
            subst hrest
            rw [hrm] at hr
            exact absurd hr (by simp)
          | cons q pre2 =>
            simp only [List.cons_append, List.cons.injEq] at hdec
            exact ih.mpr ⟨pre2, h, post, hdec.2, hrm⟩
      · constructor
        · intro _
          exact ⟨[], h0, rest, rfl, by simpa using hr⟩
        · intro _
          rw [survivors_cons_subscribe, if_neg hr]
          exact List.cons_ne_nil _ _
    | unsubscribe h0 =>
      rw [survivors_cons_unsubscribe, ih]
      constructor
      · rintro ⟨pre, h, post, hdec, hrm⟩
        exact ⟨LOp.unsubscribe h0 :: pre, h, post, by simp [hdec], hrm⟩
      · rintro ⟨pre, h, post, hdec, hrm⟩
        cases pre with
        | nil => simp at hdec
        | cons q pre2 =>
          simp only [List.cons_append, List.cons.injEq] at hdec
          exact ⟨pre2, h, post, hdec.2, hrm⟩
    | publish msg =>
      rw [survivors_cons_publish, ih]
      constructor
      · rintro ⟨pre, h, post, hdec, hrm⟩
        exact ⟨LOp.publish msg :: pre, h, post, by simp [hdec], hrm⟩
      · rintro ⟨pre, h, post, hdec, hrm⟩
        cases pre with
        | nil => simp at hdec
        | cons q pre2 =>
          simp only [List.cons_append, List.cons.injEq] at hdec
          exact ⟨pre2, h, post, hdec.2, hrm⟩

/-- C7: `has_subscribers` is true exactly when the subscriber list is
non-empty (and, being a pure read of the list, changes nothing); and for every
call sequence starting from `new`, it ends up true exactly when some subscribe
call occurred with no later identity-equal unsubscribe call. -/
theorem has_subscribers_iff {T E : Type} (upd : Handle → T → Except E Unit) :
    (∀ p : Publisher T, p.has_subscribers = true ↔ p.subscribers ≠ [])
  ∧ (∀ ops : List (LOp T),
      (Publisher.runOps upd Publisher.new ops).has_subscribers = true
        ↔ ∃ pre h post, ops = pre ++ LOp.subscribe h :: post ∧ LOp.unsubscribe h ∉ post) := by
  have hbase : ∀ p : Publisher T, p.has_subscribers = true ↔ p.subscribers ≠ [] := by
    intro p
    simp [Publisher.has_subscribers, List.isEmpty_iff]
  refine ⟨hbase, fun ops => ?_⟩
  rw [hbase, runOps_subscribers upd ops Publisher.new]
  have hnil : (Publisher.new : Publisher T).subscribers.filter (fun s => !removedBy ops s)
      = [] := rfl
  rw [hnil, List.nil_append, survivors_ne_nil_iff]
  constructor
  · rintro ⟨pre, h, post, hdec, hrm⟩
    exact ⟨pre, h, post, hdec, (removedBy_eq_false_iff h post).mp hrm⟩
  · rintro ⟨pre, h, post, hdec, hni⟩
    exact ⟨pre, h, post, hdec, (removedBy_eq_false_iff h post).mpr hni⟩
